import Mathlib

/-!
Verification of the incremental harvesting and merge engine of
`scripts/fetch_saved_posts.py` (thread-tidy).

Python strings are modelled as `List Char` (a Python `str` is a sequence of
code points), because the primitive operations the script uses (`strip`,
`split`, `lower`, `startswith`, `in`, `<=`) must be executable by kernel
reduction.  DOM elements are modelled by their query capabilities
(`query_selector` / `query_selector_all`), which is the browser-automation
collaborator boundary; a found element exposes `get_attribute` and
`inner_text`.  Wall-clock readings (`datetime.now()`), which the script takes
at each extraction, are passed in explicitly as `Clock` values.
-/

/-- A Python string: a sequence of code points. -/
abbrev Str : Type := List Char

/-- Coerce a Lean string literal to the model type. -/
def str (s : String) : Str := s.data

/-- Python string comparison `a <= b`: lexicographic by code point. -/
def strLeB : Str → Str → Bool
  | [], _ => true
  | _ :: _, [] => false
  | a :: as, b :: bs => if a < b then true else if a = b then strLeB as bs else false

/-- Python `s.strip()`: remove leading and trailing whitespace. -/
def trimStr (s : Str) : Str :=
  ((s.dropWhile Char.isWhitespace).reverse.dropWhile Char.isWhitespace).reverse

/-- Python `s.lower()` (ASCII case folding, which is all the script compares). -/
def lowerStr (s : Str) : Str := s.map Char.toLower

/-- Python `sub in s`: substring containment. -/
def containsSub (sub : Str) : Str → Bool
  | [] => List.isPrefixOf sub []
  | c :: rest => List.isPrefixOf sub (c :: rest) || containsSub sub rest

/-- Worker for `splitOnStr`; the fuel starts at the length of the string, and
each step consumes one unit of fuel and at least one character, so the fuel
never runs out before the string does. -/
def splitOnGo (sep : Str) : Nat → Str → Str → List Str
  | _, [], acc => [acc.reverse]
  | 0, s, acc => [acc.reverse ++ s]
  | fuel + 1, c :: rest, acc =>
    if !sep.isEmpty && List.isPrefixOf sep (c :: rest) then
      acc.reverse :: splitOnGo sep fuel (List.drop (sep.length - 1) rest) []
    else
      splitOnGo sep fuel rest (c :: acc)

/-- Python `s.split(sep)`: left-to-right, non-overlapping split. -/
def splitOnStr (s sep : Str) : List Str := splitOnGo sep s.length s []

/-- Model of `CONTENT_CONFIG` from the script. -/
structure ContentConfig where
  min_content_length : Nat
  excluded_keywords : List Str

def CONTENT_CONFIG : ContentConfig :=
  { min_content_length := 10
    excluded_keywords := [str "icon", str "logo", str "button", str "avatar"] }

/-- Model of `SCROLL_CONFIG` from the script. -/
structure ScrollConfig where
  smart_mode_max : Nat
  full_mode_max : Nat
  no_new_posts_limit : Nat
  save_interval : Nat

def SCROLL_CONFIG : ScrollConfig :=
  { smart_mode_max := 50
    full_mode_max := 100
    no_new_posts_limit := 20
    save_interval := 10 }

/-- Model of `URLS["base"]` from the script. -/
def URLS_base : Str := str "https://www.threads.com"

/-- Model of `SELECTORS["username"]`. -/
def SELECTORS_username : List Str :=
  [ str "a[href^=\"/@\"]"
  , str "[data-testid=\"username\"]"
  , str ".x1i10hfl.xjbqb8w.x1ejq31n.xd10rxx" ]

/-- Model of `SELECTORS["display_name"]`. -/
def SELECTORS_display_name : List Str :=
  [ str "[data-testid=\"username\"]"
  , str ".x1i10hfl.xjbqb8w.x1ejq31n.xd10rxx span"
  , str "h3"
  , str "h4" ]

/-- Model of `SELECTORS["content"]`. -/
def SELECTORS_content : List Str :=
  [ str "span[dir=\"auto\"]"
  , str "[data-testid=\"post-text\"]"
  , str "[data-testid=\"text-post-content\"]"
  , str "div[dir=\"auto\"]"
  , str "div > span" ]

/-- Model of `SELECTORS["timestamp"]`. -/
def SELECTORS_timestamp : List Str :=
  [ str "time"
  , str "[datetime]"
  , str "a[href*=\"/post/\"] time" ]

/-- An element returned by a selector query: it exposes `get_attribute`
(`none` models Python `None` for an absent attribute) and `inner_text`. -/
structure FoundElem where
  attrs : Str → Option Str
  innerText : Str

/-- A post container element, modelled by its two query capabilities
(`query_selector` returns the first matching descendant, `query_selector_all`
returns all of them). -/
structure PostElement where
  queryOne : Str → Option FoundElem
  queryAll : Str → List FoundElem

/-- The wall-clock readings taken during one extraction:
`datetime.now().timestamp()` (used for synthetic ids) and
`datetime.now(timezone.utc).isoformat()` (used for `saved_at`). -/
structure Clock where
  ts : Str
  iso : Str

/-- The `author` sub-record of a post. -/
structure Author where
  username : Str
  display_name : Str

deriving instance DecidableEq for Author

/-- One entry of the `media` list of a post. -/
structure MediaItem where
  type : Str
  url : Str

deriving instance DecidableEq for MediaItem

/-- The Post record built by `extract_post_data`. -/
structure Post where
  post_id : Str
  url : Str
  author : Author
  content : Str
  media : List MediaItem
  timestamp : Str
  saved_at : Str
  categories : List Str
  keywords : List Str

deriving instance DecidableEq for Post

/-- Model of `find_element_by_selectors` (fetch_saved_posts.py:153-166): try each
selector in order; on a found descendant take the named attribute value (when
an attribute is requested) or the trimmed inner text, return it if non-empty
(Python truthiness), otherwise move on to the next selector. -/
def find_element_by_selectors (element : PostElement) : List Str → Option Str → Str
  | [], _ => []
  | selector :: restSelectors, attrName =>
    match element.queryOne selector with
    | some found =>
      match attrName with
      | some attr =>
        match found.attrs attr with
        | some result =>
          if !result.isEmpty then result
          else find_element_by_selectors element restSelectors attrName
        | none => find_element_by_selectors element restSelectors attrName
      | none =>
        if !(trimStr found.innerText).isEmpty then trimStr found.innerText
        else find_element_by_selectors element restSelectors attrName
    | none => find_element_by_selectors element restSelectors attrName

/-- The value a single selector contributes in `find_element_by_selectors`:
the requested attribute (empty when the selector matches nothing or the
attribute is absent), else the trimmed inner text.  Used to characterise the
resolver as "first non-empty candidate in selector order". -/
def selectorValue (element : PostElement) (attrName : Option Str) (selector : Str) : Str :=
  match element.queryOne selector with
  | none => []
  | some found =>
    match attrName with
    | some attr => (found.attrs attr).getD []
    | none => trimStr found.innerText

/-- Model of `extract_post_url_and_id` (fetch_saved_posts.py:169-186).  Returns `none`
on the path where Python raises: when a link element is found but has no
`href` attribute, `post_url` is `None` and `"/post/" in post_url` raises
`TypeError`, which `extract_post_data` turns into a discarded record. -/
def extract_post_url_and_id (post_element : PostElement) (now_ts : Str) : Option (Str × Str) :=
  let post_link :=
    match post_element.queryOne (str "a[href*=\"/post/\"]") with
    | some l => some l
    | none => post_element.queryOne (str "a[href*=\"threads.com\"]")
  match post_link with
  | none =>
    -- post_url = "" : no "/post/" marker, no leading "/", id falls back to synthetic
    some ([], str "unknown_" ++ now_ts)
  | some l =>
    match l.attrs (str "href") with
    | none => none
    | some href =>
      let post_id :=
        if containsSub (str "/post/") href then
          (splitOnStr ((splitOnStr href (str "/post/")).getLastD []) (str "?")).headD []
        else []
      let post_url := if List.isPrefixOf (str "/") href then URLS_base ++ href else href
      some (post_url, if !post_id.isEmpty then post_id else str "unknown_" ++ now_ts)

/-- The username loop of `extract_author_info` (fetch_saved_posts.py:195-206):
first selector whose element yields a truthy `href`-or-inner-text, with the
`/@` and `@` prefixes stripped. -/
def usernameFromSelectors (post_element : PostElement) : List Str → Str
  | [] => []
  | selector :: restSelectors =>
    match post_element.queryOne selector with
    | some username_element =>
      let username_text :=
        match username_element.attrs (str "href") with
        | some h => if !h.isEmpty then h else username_element.innerText
        | none => username_element.innerText
      if !username_text.isEmpty then
        if List.isPrefixOf (str "/@") username_text then username_text.drop 2
        else if List.isPrefixOf (str "@") username_text then username_text.drop 1
        else username_text
      else usernameFromSelectors post_element restSelectors
    | none => usernameFromSelectors post_element restSelectors

/-- Model of `extract_author_info` (fetch_saved_posts.py:189-216). -/
def extract_author_info (post_element : PostElement) : Author :=
  let username := usernameFromSelectors post_element SELECTORS_username
  let display_name0 := find_element_by_selectors post_element SELECTORS_display_name none
  let display_name := if List.isPrefixOf (str "@") display_name0 then [] else display_name0
  { username := username
    display_name := if !display_name.isEmpty then display_name else username }

/-- The texts one content selector contributes (fetch_saved_posts.py:224-228):
trimmed inner texts that are truthy, longer than the configured minimum, and
do not begin with "@". -/
def qualifyingTexts (elems : List FoundElem) : List Str :=
  (elems.map (fun el => trimStr el.innerText)).filter
    (fun text =>
      !text.isEmpty && decide (CONTENT_CONFIG.min_content_length < text.length) &&
        !(List.isPrefixOf (str "@") text))

/-- Python `max(texts, key=len)`: the first text of maximal length
(`max` keeps the current maximum on ties). -/
def pickLongest : List Str → Str
  | [] => []
  | t :: ts => ts.foldl (fun acc x => if acc.length < x.length then x else acc) t

/-- The selector cascade of `extract_post_content`: the accumulated list is
checked after each selector and the loop breaks as soon as it is non-empty,
so only the first selector with qualifying texts contributes. -/
def contentScan (post_element : PostElement) : List Str → List Str
  | [] => []
  | selector :: restSelectors =>
    let q := qualifyingTexts (post_element.queryAll selector)
    if q.isEmpty then contentScan post_element restSelectors else q

/-- Model of `extract_post_content` (fetch_saved_posts.py:219-233). -/
def extract_post_content (post_element : PostElement) : Str :=
  pickLongest (contentScan post_element SELECTORS_content)

/-- Python `element.get_attribute(a)` with `None` collapsed to the empty
string, as the script's truthiness checks treat them alike. -/
def attrOrD (el : FoundElem) (a : Str) : Str := (el.attrs a).getD []

/-- The decorative-keyword deny-list check on image URLs
(fetch_saved_posts.py:244). -/
def excludedKeywordHit (src : Str) : Bool :=
  CONTENT_CONFIG.excluded_keywords.any (fun keyword => containsSub keyword (lowerStr src))

/-- Model of `extract_media_info` (fetch_saved_posts.py:236-261). -/
def extract_media_info (post_element : PostElement) : List MediaItem :=
  let images := (post_element.queryAll (str "img")).filterMap (fun img =>
    let src := attrOrD img (str "src")
    if !src.isEmpty && List.isPrefixOf (str "http") src && !excludedKeywordHit src then
      some { type := str "image", url := src }
    else none)
  let videos := (post_element.queryAll (str "video")).filterMap (fun video =>
    let src :=
      if !(attrOrD video (str "src")).isEmpty then attrOrD video (str "src")
      else attrOrD video (str "poster")
    if !src.isEmpty && List.isPrefixOf (str "http") src then
      some { type := str "video", url := src }
    else none)
  let sources := (post_element.queryAll (str "video source")).filterMap (fun source =>
    let src := attrOrD source (str "src")
    if !src.isEmpty && List.isPrefixOf (str "http") src then
      some { type := str "video", url := src }
    else none)
  images ++ videos ++ sources

/-- The selector loop of `extract_timestamp` (fetch_saved_posts.py:264-272). -/
def timestampFromSelectors (post_element : PostElement) : List Str → Str
  | [] => []
  | selector :: restSelectors =>
    match post_element.queryOne selector with
    | some time_element =>
      match time_element.attrs (str "datetime") with
      | some datetime_attr =>
        if !datetime_attr.isEmpty then datetime_attr
        else timestampFromSelectors post_element restSelectors
      | none => timestampFromSelectors post_element restSelectors
    | none => timestampFromSelectors post_element restSelectors

/-- Model of `extract_timestamp` (fetch_saved_posts.py:264-272). -/
def extract_timestamp (post_element : PostElement) : Str :=
  timestampFromSelectors post_element SELECTORS_timestamp

/-- Model of `extract_post_data` (fetch_saved_posts.py:275-300): composes the field
extractors into a Post; `none` models the exception path. -/
def extract_post_data (post_element : PostElement) (clock : Clock) : Option Post :=
  match extract_post_url_and_id post_element clock.ts with
  | none => none
  | some (post_url, post_id) =>
    some { post_id := post_id
           url := post_url
           author := extract_author_info post_element
           content := extract_post_content post_element
           media := extract_media_info post_element
           timestamp := extract_timestamp post_element
           saved_at := clock.iso
           categories := []
           keywords := [] }

/-- Python truthiness of `existing_post_ids` combined with
`stop_on_existing = existing_post_ids is not None`
(fetch_saved_posts.py:334,343): the existing-hit branch fires only when the
set was supplied, is non-empty, and contains the id. -/
def existingHit (existing_post_ids : Option (List Str)) (post_id : Str) : Bool :=
  match existing_post_ids with
  | none => false
  | some ids => !ids.isEmpty && ids.contains post_id

/-- Model of `extract_posts_from_elements` (fetch_saved_posts.py:330-354).  Elements
are paired with the wall-clock readings of their extraction; the in-run
seen-set is threaded and returned (Python mutates it), so the result is
`(new_posts, existing_found_count, seen_post_ids)`. -/
def extract_posts_from_elements :
    List (PostElement × Clock) → List Str → Option (List Str) → List Post × Nat × List Str
  | [], seen_post_ids, _ => ([], 0, seen_post_ids)
  | (element, clock) :: rest, seen_post_ids, existing_post_ids =>
    match extract_post_data element clock with
    | some post_data =>
      if seen_post_ids.contains post_data.post_id then
        extract_posts_from_elements rest seen_post_ids existing_post_ids
      else if existingHit existing_post_ids post_data.post_id then
        -- existing-hit: counted, not appended, and the seen-set is NOT extended
        let r := extract_posts_from_elements rest seen_post_ids existing_post_ids
        (r.1, r.2.1 + 1, r.2.2)
      else if !post_data.content.isEmpty || !post_data.media.isEmpty ||
          !post_data.post_id.isEmpty then
        let r := extract_posts_from_elements rest
          (post_data.post_id :: seen_post_ids) existing_post_ids
        (post_data :: r.1, r.2.1, r.2.2)
      else
        extract_posts_from_elements rest seen_post_ids existing_post_ids
    | none => extract_posts_from_elements rest seen_post_ids existing_post_ids

/-- The mutable state of the scroll loop in `scroll_and_extract_posts`:
the output accumulator, the in-run seen-set, and the consecutive
no-new-posts counter. -/
structure LoopState where
  posts : List Post
  seen_post_ids : List Str
  no_new_posts_count : Nat

deriving instance DecidableEq for LoopState

/-- One round of the scroll loop (fetch_saved_posts.py:379-403): extract from
the current containers, extend the output, and update the empty-round
counter (increment on an empty batch, reset on a non-empty one). -/
def scrollStep (existing_post_ids : Option (List Str))
    (post_elements : List (PostElement × Clock)) (st : LoopState) : LoopState :=
  let r := extract_posts_from_elements post_elements st.seen_post_ids existing_post_ids
  { posts := st.posts ++ r.1
    seen_post_ids := r.2.2
    no_new_posts_count := if r.1.isEmpty then st.no_new_posts_count + 1 else 0 }

/-- The `for scroll_count in range(max_scrolls)` loop of
`scroll_and_extract_posts` (fetch_saved_posts.py:377-412).  `feed i` models
what `collect_post_elements_on_page` returns at round `i` (the page is the
external collaborator).  Returns the final state and the number of rounds
executed.  The source checks the stop threshold only inside the empty-batch
branch; after a non-empty batch the counter is `0 < 20`, so testing
`limit <= counter` after every round is the same condition.  The periodic
mid-save (every `save_interval` rounds) only writes to disk and does not
change the loop state, so it is not represented. -/
def scrollLoop (feed : Nat → List (PostElement × Clock))
    (existing_post_ids : Option (List Str)) :
    Nat → Nat → LoopState → LoopState × Nat
  | 0, scroll_count, st => (st, scroll_count)
  | fuel + 1, scroll_count, st =>
    if (feed scroll_count).isEmpty then (st, scroll_count)
    else if SCROLL_CONFIG.no_new_posts_limit ≤
        (scrollStep existing_post_ids (feed scroll_count) st).no_new_posts_count then
      (scrollStep existing_post_ids (feed scroll_count) st, scroll_count + 1)
    else
      scrollLoop feed existing_post_ids fuel (scroll_count + 1)
        (scrollStep existing_post_ids (feed scroll_count) st)

/-- Model of `scroll_and_extract_posts` (fetch_saved_posts.py:357-414): smart mode
(ceiling 50) when a truthy existing-id set is supplied, full mode
(ceiling 100) otherwise. -/
def scroll_and_extract_posts (feed : Nat → List (PostElement × Clock))
    (existing_post_ids : Option (List Str)) : List Post :=
  let max_scrolls :=
    match existing_post_ids with
    | some ids => if !ids.isEmpty then SCROLL_CONFIG.smart_mode_max else SCROLL_CONFIG.full_mode_max
    | none => SCROLL_CONFIG.full_mode_max
  (scrollLoop feed existing_post_ids max_scrolls 0
    { posts := [], seen_post_ids := [], no_new_posts_count := 0 }).1.posts

/-- Descending `saved_at` order: `a` may precede `b` iff `b.saved_at <= a.saved_at`
(the sort key of fetch_saved_posts.py:447 with `reverse=True`). -/
def postGe (a b : Post) : Prop := strLeB b.saved_at a.saved_at = true

instance : DecidableRel postGe :=
  fun a b => inferInstanceAs (Decidable (strLeB b.saved_at a.saved_at = true))

/-- Model of `merge_posts` (fetch_saved_posts.py:435-457).  Python `list.sort` is a
stable sort; `List.insertionSort` is the stable sort with respect to
`postGe`, i.e. descending by `saved_at` with ties kept in original order.
The `except` fallback (sort by `post_id`) is unreachable in this model:
comparison of string keys is total and never raises. -/
def merge_posts (existing_posts new_posts : List Post) : List Post :=
  let existing_ids := existing_posts.map (fun post => post.post_id)
  let unique_new_posts := new_posts.filter (fun post => !existing_ids.contains post.post_id)
  let merged_posts := existing_posts ++ unique_new_posts
  List.insertionSort postGe merged_posts

/-- A fixed pair of wall-clock readings for concrete scenarios. -/
def clk0 : Clock := { ts := str "1700000000.0", iso := str "2024-03-01T00:00:00+00:00" }

/-- A concrete container holding one permalink `/@u/post/<id>` and nothing
else: extraction yields a Post whose id is `<id>` and whose other fields are
empty. -/
def elemPost (id : Str) : PostElement :=
  { queryOne := fun s =>
      if s = str "a[href*=\"/post/\"]" then
        some { attrs := fun a => if a = str "href" then some (str "/@u/post/" ++ id) else none
               innerText := [] }
      else none
    queryAll := fun _ => [] }

/-- A concrete container whose permalink element has no `href` attribute:
`extract_post_data` fails on it (the Python `TypeError` path), so a round
made of such containers appends nothing, whatever the seen-set. -/
def elemFail : PostElement :=
  { queryOne := fun s =>
      if s = str "a[href*=\"/post/\"]" then
        some { attrs := fun _ => none, innerText := [] }
      else none
    queryAll := fun _ => [] }

/-- Scenario feed for the empty-round counter: rounds 0-4 and 6+ present a
container that yields nothing, round 5 presents a container with a new
post. -/
def feedC7 : Nat → List (PostElement × Clock) := fun i =>
  if i = 5 then [(elemPost (str "p1"), clk0)] else [(elemFail, clk0)]

/-- Scenario feed for full-mode termination: round 0 yields one new post,
every later round presents a container but yields nothing. -/
def feedW8 : Nat → List (PostElement × Clock) := fun i =>
  if i = 0 then [(elemPost (str "p1"), clk0)] else [(elemFail, clk0)]

/-- A Post with the given id and saved-at value and empty remaining fields,
for concrete merge scenarios. -/
def mkPost (id savedAt : Str) : Post :=
  { post_id := id
    url := []
    author := { username := [], display_name := [] }
    content := []
    media := []
    timestamp := []
    saved_at := savedAt
    categories := []
    keywords := [] }

/-- Concrete element for the Selector Resolver counterexample: the first
selector matches an element with no attributes but non-empty inner text, the
second matches an element carrying the requested attribute. -/
def eC3 : PostElement :=
  { queryOne := fun s =>
      if s = str "selA" then
        some { attrs := fun _ => none, innerText := str "hello world" }
      else if s = str "selB" then
        some { attrs := fun a => if a = str "x" then some (str "v") else none
               innerText := [] }
      else none
    queryAll := fun _ => [] }

/-- Concrete element for the content-extraction witness: the first content
selector yields no qualifying text, the second yields two qualifying texts
of different lengths. -/
def eC9 : PostElement :=
  { queryOne := fun _ => none
    queryAll := fun s =>
      if s = str "[data-testid=\"post-text\"]" then
        [ { attrs := fun _ => none, innerText := str "twelve chars" }
        , { attrs := fun _ => none, innerText := str "fourteen chars" } ]
      else [] }

instance : IsTotal Post postGe :=
  ⟨fun a b => by
    show strLeB b.saved_at a.saved_at = true ∨ strLeB a.saved_at b.saved_at = true
    generalize b.saved_at = x
    generalize a.saved_at = y
    induction x generalizing y with
    | nil => left; rfl
    | cons c cs ih =>
      cases y with
      | nil => right; rfl
      | cons d ds =>
        rcases lt_trichotomy c d with h | h | h
        · left; simp [strLeB, h]
        · subst h
          rcases ih ds with h2 | h2
          · left; simp [strLeB, h2]
          · right; simp [strLeB, h2]
        · right
          simp only [strLeB, if_pos h]⟩

instance : IsTrans Post postGe :=
  ⟨fun a b c h1 h2 => by
    show strLeB c.saved_at a.saved_at = true
    have key : ∀ (x y z : Str), strLeB x y = true → strLeB y z = true → strLeB x z = true := by
      intro x
      induction x with
      | nil => intro y z _ _; rfl
      | cons u us ih =>
        intro y z h1 h2
        cases y with
        | nil => simp [strLeB] at h1
        | cons v vs =>
          cases z with
          | nil => simp [strLeB] at h2
          | cons w ws =>
            simp only [strLeB] at h1 h2 ⊢
            by_cases huv : u < v
            · by_cases hvw : v < w
              · simp [lt_trans huv hvw]
              · simp only [if_neg hvw] at h2
                by_cases heq : v = w
                · subst heq; simp [huv]
                · simp [heq] at h2
            · simp only [if_neg huv] at h1
              by_cases heq : u = v
              · subst heq
                simp only [if_pos rfl] at h1
                by_cases huw : u < w
                · simp [huw]
                · simp only [if_neg huw] at h2 ⊢
                  by_cases heq2 : u = w
                  · simp only [heq2, if_pos rfl] at h2 ⊢
                    subst heq2
                    exact ih vs ws h1 h2
                  · simp [heq2] at h2
              · simp [heq] at h1
    exact key c.saved_at b.saved_at a.saved_at h2 h1⟩

/-- A stable sort leaves an already-sorted list unchanged: `orderedInsert`
puts the next element directly in front when it already relates to the head. -/
theorem insertionSort_pairwise_eq_self {α : Type} (r : α → α → Prop) [DecidableRel r] :
    ∀ l : List α, l.Pairwise r → List.insertionSort r l = l := by
  intro l h
  induction l with
  | nil => rfl
  | cons a t ih =>
    rw [List.insertionSort, ih (List.Pairwise.of_cons h)]
    cases t with
    | nil => rfl
    | cons b t2 =>
      rw [List.orderedInsert, if_pos (List.rel_of_pairwise_cons h (List.mem_cons_self b t2))]

/-- C4: for every archive and batch, the output of `merge_posts` is sorted in
descending lexicographic order of the `saved_at` field (the `except` fallback
sort by `post_id` is unreachable: string-key comparison is total and never
raises). -/
theorem merge_posts_sorted_desc (existing_posts new_posts : List Post) :
    (merge_posts existing_posts new_posts).Pairwise
      (fun a b => strLeB b.saved_at a.saved_at = true) :=
  List.sorted_insertionSort postGe _

/-- C5: merging an empty batch into an already-merged archive is the
identity: `merge_posts (merge_posts A B) [] = merge_posts A B`. -/
theorem merge_posts_idempotent (A B : List Post) :
    merge_posts (merge_posts A B) [] = merge_posts A B := by
  have h1 : merge_posts (merge_posts A B) [] =
      List.insertionSort postGe (merge_posts A B ++ []) := rfl
  rw [h1, List.append_nil]
  exact insertionSort_pairwise_eq_self postGe _ (List.sorted_insertionSort postGe _)

/-- C6: `merge_posts` keeps every archive record unchanged and drops every
batch record whose id already occurs in the archive (the output is a
permutation of the archive plus the id-filtered batch); in the concrete
scenario, the duplicate of id "1" from the batch is dropped, the archive's
original record for "1" is retained, and id "2" is placed first. -/
theorem merge_posts_drops_duplicates :
    (∀ (existing_posts new_posts : List Post),
      (merge_posts existing_posts new_posts).Perm
        (existing_posts ++ new_posts.filter
          (fun post => !(existing_posts.map (fun q => q.post_id)).contains post.post_id))) ∧
    merge_posts [mkPost (str "1") (str "2024-01-01T00:00:00Z")]
        [mkPost (str "2") (str "2024-02-01T00:00:00Z"),
         mkPost (str "1") (str "2024-02-02T00:00:00Z")] =
      [mkPost (str "2") (str "2024-02-01T00:00:00Z"),
       mkPost (str "1") (str "2024-01-01T00:00:00Z")] :=
  ⟨fun _ _ => List.perm_insertionSort postGe _, by decide⟩

/-- Core and Mathlib count the same way through either `BEq Str` instance. -/
theorem strCount_eq (a : Str) (l : List Str) :
    l.count a = @List.count Str instBEqOfDecidableEq a l := by
  induction l with
  | nil => rfl
  | cons x xs ih =>
    rw [List.count_cons, @List.count_cons Str instBEqOfDecidableEq, ih]
    by_cases h : x = a
    · simp [h]
    · simp [h]

/-- C1: for an archive with unique ids and a harvested batch with unique ids
(the invariants the spec states for both inputs), the merged result has no
duplicate ids and every id occurring in the archive or in the batch appears
exactly once. -/
theorem merge_posts_ids_unique (A B : List Post)
    (hA : (A.map Post.post_id).Nodup) (hB : (B.map Post.post_id).Nodup) :
    ((merge_posts A B).map Post.post_id).Nodup ∧
    ∀ i : Str, i ∈ A.map Post.post_id ∨ i ∈ B.map Post.post_id →
      ((merge_posts A B).map Post.post_id).count i = 1 := by
  have hperm : (merge_posts A B).Perm
      (A ++ B.filter (fun post => !(A.map (fun q => q.post_id)).contains post.post_id)) :=
    List.perm_insertionSort postGe _
  have hmap : ((merge_posts A B).map Post.post_id).Perm
      (A.map Post.post_id ++
        (B.filter (fun post =>
          !(A.map (fun q => q.post_id)).contains post.post_id)).map Post.post_id) := by
    simpa using hperm.map Post.post_id
  have hBf_sub : List.Sublist
      ((B.filter (fun post =>
        !(A.map (fun q => q.post_id)).contains post.post_id)).map Post.post_id)
      (B.map Post.post_id) :=
    (List.filter_sublist B).map Post.post_id
  have hBfnd : ((B.filter (fun post =>
      !(A.map (fun q => q.post_id)).contains post.post_id)).map Post.post_id).Nodup :=
    hB.sublist hBf_sub
  have hdisj : ∀ i ∈ A.map Post.post_id,
      i ∉ (B.filter (fun post =>
        !(A.map (fun q => q.post_id)).contains post.post_id)).map Post.post_id := by
    intro i hiA hiBf
    obtain ⟨p, hpBf, rfl⟩ := List.mem_map.mp hiBf
    obtain ⟨_, hpred⟩ := List.mem_filter.mp hpBf
    simp only [Bool.not_eq_true'] at hpred
    have hnot : p.post_id ∉ A.map (fun q => q.post_id) := by simpa using hpred
    exact hnot (by simpa using hiA)
  have hnodup : ((merge_posts A B).map Post.post_id).Nodup := by
    refine hmap.nodup_iff.mpr (List.nodup_append.mpr ⟨hA, hBfnd, ?_⟩)
    intro i hiA hiBf
    exact hdisj i hiA hiBf
  refine ⟨hnodup, ?_⟩
  intro i hi
  have hcnt : ((merge_posts A B).map Post.post_id).count i =
      (A.map Post.post_id ++
        (B.filter (fun post =>
          !(A.map (fun q => q.post_id)).contains post.post_id)).map Post.post_id).count i := by
    rw [strCount_eq, strCount_eq]
    exact hmap.count_eq i
  rw [hcnt, List.count_append]
  by_cases hiA : i ∈ A.map Post.post_id
  · rw [List.count_eq_zero_of_not_mem (hdisj i hiA)]
    rw [strCount_eq]
    rw [List.count_eq_one_of_mem hA hiA]
  · have hiB : i ∈ B.map Post.post_id := hi.resolve_left hiA
    obtain ⟨p, hpB, rfl⟩ := List.mem_map.mp hiB
    have hpf : p ∈ B.filter (fun post =>
        !(A.map (fun q => q.post_id)).contains post.post_id) := by
      refine List.mem_filter.mpr ⟨hpB, ?_⟩
      have hnm : p.post_id ∉ A.map (fun q => q.post_id) := by
        intro hmem
        exact hiA (by simpa using hmem)
      simpa using hnm
    rw [List.count_eq_zero_of_not_mem hiA]
    rw [strCount_eq]
    rw [List.count_eq_one_of_mem hBfnd (List.mem_map_of_mem Post.post_id hpf)]

/-- Witness for C1 at a concrete archive and batch. -/
theorem merge_posts_ids_unique_witness :
    ([mkPost (str "1") (str "2024-01-01T00:00:00Z")].map Post.post_id).Nodup ∧
    ([mkPost (str "2") (str "2024-02-01T00:00:00Z")].map Post.post_id).Nodup ∧
    ((merge_posts [mkPost (str "1") (str "2024-01-01T00:00:00Z")]
        [mkPost (str "2") (str "2024-02-01T00:00:00Z")]).map Post.post_id).Nodup ∧
    ((merge_posts [mkPost (str "1") (str "2024-01-01T00:00:00Z")]
        [mkPost (str "2") (str "2024-02-01T00:00:00Z")]).map Post.post_id).count (str "1") = 1 :=
  ⟨by decide, by decide,
   (merge_posts_ids_unique
     [mkPost (str "1") (str "2024-01-01T00:00:00Z")]
     [mkPost (str "2") (str "2024-02-01T00:00:00Z")] (by decide) (by decide)).1,
   (merge_posts_ids_unique
     [mkPost (str "1") (str "2024-01-01T00:00:00Z")]
     [mkPost (str "2") (str "2024-02-01T00:00:00Z")] (by decide) (by decide)).2
     (str "1") (Or.inl (by decide))⟩

/-- C7: the consecutive-empty-rounds counter increments by one when a round
appends no new posts (existing-hits do not count as new), resets to zero when
a round appends at least one, and the loop stops the moment the counter
reaches `SCROLL_CONFIG.no_new_posts_limit`; in the concrete scenario, five
empty rounds followed by a productive round reset the streak to zero and the
next empty round makes the count 1, not 6. -/
theorem empty_round_counter :
    (∀ (existing_post_ids : Option (List Str)) (elems : List (PostElement × Clock))
        (st : LoopState),
      (extract_posts_from_elements elems st.seen_post_ids existing_post_ids).1 = [] →
      (scrollStep existing_post_ids elems st).no_new_posts_count =
        st.no_new_posts_count + 1) ∧
    (∀ (existing_post_ids : Option (List Str)) (elems : List (PostElement × Clock))
        (st : LoopState),
      (extract_posts_from_elements elems st.seen_post_ids existing_post_ids).1 ≠ [] →
      (scrollStep existing_post_ids elems st).no_new_posts_count = 0) ∧
    (∀ (feed : Nat → List (PostElement × Clock)) (existing_post_ids : Option (List Str))
        (fuel i : Nat) (st : LoopState),
      (feed i).isEmpty = false →
      SCROLL_CONFIG.no_new_posts_limit ≤
        (scrollStep existing_post_ids (feed i) st).no_new_posts_count →
      scrollLoop feed existing_post_ids (fuel + 1) i st =
        (scrollStep existing_post_ids (feed i) st, i + 1)) ∧
    ((scrollLoop feedC7 none 5 0 ⟨[], [], 0⟩).1.no_new_posts_count = 5 ∧
     (scrollLoop feedC7 none 6 0 ⟨[], [], 0⟩).1.no_new_posts_count = 0 ∧
     (scrollLoop feedC7 none 7 0 ⟨[], [], 0⟩).1.no_new_posts_count = 1) := by
  refine ⟨?_, ?_, ?_, by decide, by decide, by decide⟩
  · intro ex elems st h
    simp [scrollStep, h]
  · intro ex elems st h
    simp only [scrollStep]
    rw [if_neg]
    simpa using h
  · intro feed ex fuel i st h1 h2
    simp [scrollLoop, h1, h2]

/-- Witness for C7: one concrete empty round on top of a counter of 5 makes
the counter 6. -/
theorem empty_round_counter_witness :
    (extract_posts_from_elements [(elemFail, clk0)] [] none).1 = [] ∧
    (scrollStep none [(elemFail, clk0)]
      { posts := [], seen_post_ids := [], no_new_posts_count := 5 }).no_new_posts_count = 6 :=
  ⟨by decide,
   empty_round_counter.1 none [(elemFail, clk0)]
     { posts := [], seen_post_ids := [], no_new_posts_count := 5 } (by decide)⟩

/-- If the first `a` rounds of the scroll loop run to completion without any
stop (witnessed by the loop having consumed all `a` units of fuel and the
resulting counter being below the stop threshold), a longer-fuelled run
continues from the reached state. -/
theorem scrollLoop_split (feed : Nat → List (PostElement × Clock))
    (existing_post_ids : Option (List Str)) :
    ∀ (a b i : Nat) (st st0 : LoopState),
      scrollLoop feed existing_post_ids a i st = (st0, i + a) →
      st0.no_new_posts_count < SCROLL_CONFIG.no_new_posts_limit →
      scrollLoop feed existing_post_ids (a + b) i st =
        scrollLoop feed existing_post_ids b (i + a) st0 := by
  intro a
  induction a with
  | zero =>
    intro b i st st0 hrun _
    simp only [scrollLoop] at hrun
    obtain ⟨h1, _⟩ := Prod.mk.injEq .. ▸ hrun
    subst h1
    rw [Nat.zero_add, Nat.add_zero]
  | succ a ih =>
    intro b i st st0 hrun hlt
    by_cases he : (feed i).isEmpty
    · simp only [scrollLoop, if_pos he] at hrun
      have : i = i + (a + 1) := congrArg Prod.snd hrun
      omega
    · by_cases hb : SCROLL_CONFIG.no_new_posts_limit ≤
          (scrollStep existing_post_ids (feed i) st).no_new_posts_count
      · simp only [scrollLoop, if_neg he, if_pos hb] at hrun
        have h2 : i + 1 = i + (a + 1) := congrArg Prod.snd hrun
        have ha : a = 0 := by omega
        subst ha
        have h1 : (scrollStep existing_post_ids (feed i) st) = st0 :=
          congrArg Prod.fst hrun
        rw [h1] at hb
        omega
      · simp only [scrollLoop, if_neg he, if_neg hb] at hrun
        have hrun2 : scrollLoop feed existing_post_ids a (i + 1)
            (scrollStep existing_post_ids (feed i) st) = (st0, (i + 1) + a) := by
          rw [hrun]
          congr 1
          omega
        have ih2 := ih b (i + 1) (scrollStep existing_post_ids (feed i) st) st0 hrun2 hlt
        have hgoal : scrollLoop feed existing_post_ids (a + 1 + b) i st =
            scrollLoop feed existing_post_ids (a + b) (i + 1)
              (scrollStep existing_post_ids (feed i) st) := by
          have hfuel : a + 1 + b = (a + b) + 1 := by omega
          rw [hfuel]
          simp only [scrollLoop, if_neg he, if_neg hb]
        rw [hgoal, ih2]
        congr 1
        omega

/-- From a state whose counter needs `n + 1` more empty rounds to reach the
stop threshold, a feed that keeps presenting containers but never yields a
new post makes the loop stop after exactly `n + 1` further rounds. -/
theorem scrollLoop_tail (feed : Nat → List (PostElement × Clock))
    (existing_post_ids : Option (List Str)) :
    ∀ (n fuel i : Nat) (st : LoopState),
      (∀ j, i ≤ j → (feed j).isEmpty = false) →
      (∀ j, i ≤ j → ∀ seen,
        (extract_posts_from_elements (feed j) seen existing_post_ids).1 = []) →
      st.no_new_posts_count + (n + 1) = SCROLL_CONFIG.no_new_posts_limit →
      n + 1 ≤ fuel →
      (scrollLoop feed existing_post_ids fuel i st).2 = i + (n + 1) := by
  intro n
  induction n with
  | zero =>
    intro fuel i st hcont hempty harith hfuel
    cases fuel with
    | zero => omega
    | succ f =>
      have hbatch : (extract_posts_from_elements (feed i)
          st.seen_post_ids existing_post_ids).1 = [] :=
        hempty i (le_refl i) st.seen_post_ids
      have hstep : (scrollStep existing_post_ids (feed i) st).no_new_posts_count =
          st.no_new_posts_count + 1 := by
        simp [scrollStep, hbatch]
      have hne : (feed i).isEmpty = false := hcont i (le_refl i)
      have hcond : SCROLL_CONFIG.no_new_posts_limit ≤
          (scrollStep existing_post_ids (feed i) st).no_new_posts_count := by
        omega
      simp [scrollLoop, hne, hcond]
  | succ n ih =>
    intro fuel i st hcont hempty harith hfuel
    cases fuel with
    | zero => omega
    | succ f =>
      have hbatch : (extract_posts_from_elements (feed i)
          st.seen_post_ids existing_post_ids).1 = [] :=
        hempty i (le_refl i) st.seen_post_ids
      have hstep : (scrollStep existing_post_ids (feed i) st).no_new_posts_count =
          st.no_new_posts_count + 1 := by
        simp [scrollStep, hbatch]
      have hne : (feed i).isEmpty = false := hcont i (le_refl i)
      have hcond : ¬ SCROLL_CONFIG.no_new_posts_limit ≤
          (scrollStep existing_post_ids (feed i) st).no_new_posts_count := by
        omega
      have hrec := ih f (i + 1) (scrollStep existing_post_ids (feed i) st)
        (fun j hj => hcont j (by omega))
        (fun j hj seen => hempty j (by omega) seen)
        (by omega) (by omega)
      simp only [scrollLoop, hne, Bool.false_eq_true, if_false, if_neg hcond]
      rw [hrec]
      omega

/-- C8: in full mode (no existing-id set), if the first K rounds complete
without stopping and leave the empty-round counter at zero, and from round K
on the feed still presents post containers but never yields a new post, then
the harvest loop executes exactly K + no-new-posts-threshold rounds (K + 20),
not more, within the full-mode ceiling of 100. -/
theorem full_mode_stops_at_threshold (feed : Nat → List (PostElement × Clock))
    (K : Nat) (st0 : LoopState)
    (hK : K + SCROLL_CONFIG.no_new_posts_limit ≤ SCROLL_CONFIG.full_mode_max)
    (hrun : scrollLoop feed none K 0
      { posts := [], seen_post_ids := [], no_new_posts_count := 0 } = (st0, K))
    (hzero : st0.no_new_posts_count = 0)
    (hcontainers : ∀ j, K ≤ j → (feed j).isEmpty = false)
    (hnonew : ∀ j, K ≤ j → ∀ seen,
      (extract_posts_from_elements (feed j) seen none).1 = []) :
    (scrollLoop feed none SCROLL_CONFIG.full_mode_max 0
      { posts := [], seen_post_ids := [], no_new_posts_count := 0 }).2 =
      K + SCROLL_CONFIG.no_new_posts_limit := by
  have h20 : SCROLL_CONFIG.no_new_posts_limit = 20 := rfl
  have h100 : SCROLL_CONFIG.full_mode_max = 100 := rfl
  rw [h20, h100] at hK ⊢
  have hsplit := scrollLoop_split feed none K (100 - K) 0
    { posts := [], seen_post_ids := [], no_new_posts_count := 0 } st0
    (by simpa using hrun) (by rw [hzero, h20]; decide)
  rw [show (100 : Nat) = K + (100 - K) from by omega]
  rw [show (0 : Nat) + K = K from Nat.zero_add K] at hsplit
  rw [hsplit]
  have htail := scrollLoop_tail feed none 19 (100 - K) K st0
    hcontainers hnonew (by rw [hzero, h20]) (by omega)
  exact htail.trans (by omega)

/-- Witness for C8 at K = 1: a concrete feed whose round 0 yields one new
post and whose later rounds keep presenting a container that never yields a
post makes the full-mode loop stop after exactly 1 + 20 rounds. -/
theorem full_mode_stops_at_threshold_witness :
    (scrollLoop feedW8 none SCROLL_CONFIG.full_mode_max 0
      { posts := [], seen_post_ids := [], no_new_posts_count := 0 }).2 =
      1 + SCROLL_CONFIG.no_new_posts_limit := by
  refine full_mode_stops_at_threshold feedW8 1
    (scrollLoop feedW8 none 1 0
      { posts := [], seen_post_ids := [], no_new_posts_count := 0 }).1
    (by decide) (by decide) (by decide) ?_ ?_
  · intro j hj
    have hj0 : j ≠ 0 := by omega
    simp [feedW8, hj0]
  · intro j hj seen
    have hj0 : j ≠ 0 := by omega
    have hfail : extract_post_data elemFail clk0 = none := by decide
    simp [feedW8, hj0, extract_posts_from_elements, hfail]

/-- Counterexample for C2: a record whose id "p1" is in the supplied
existing-id set and not in the (empty) seen-set is counted as an
existing-hit and not appended, but its id is NOT added to the seen-set —
the seen-set comes back empty, contradicting the claim that the id is added
to it. -/
theorem smart_mode_existing_hit_cex :
    (extract_post_data (elemPost (str "p1")) clk0).map Post.post_id = some (str "p1") ∧
    ([] : List Str).contains (str "p1") = false ∧
    ([str "p1"] : List Str).contains (str "p1") = true ∧
    extract_posts_from_elements [(elemPost (str "p1"), clk0)] [] (some [str "p1"]) =
      ([], 1, []) ∧
    (extract_posts_from_elements [(elemPost (str "p1"), clk0)] []
      (some [str "p1"])).2.2.contains (str "p1") = false := by
  refine ⟨by decide, by decide, by decide, by decide, by decide⟩

/-- C2 amended: in smart mode (non-empty existing-id set), an extracted
record whose id is in the existing set and not yet in the seen-set is counted
as an existing-hit and not appended to the output; the rest of the element
list is processed with the seen-set UNCHANGED (the id is not added to it). -/
theorem smart_mode_existing_hit (element : PostElement) (clock : Clock)
    (rest : List (PostElement × Clock)) (seen_post_ids existing_ids : List Str)
    (post_data : Post)
    (hex : extract_post_data element clock = some post_data)
    (hseen : seen_post_ids.contains post_data.post_id = false)
    (hne : existing_ids.isEmpty = false)
    (hmem : existing_ids.contains post_data.post_id = true) :
    extract_posts_from_elements ((element, clock) :: rest) seen_post_ids (some existing_ids) =
      ((extract_posts_from_elements rest seen_post_ids (some existing_ids)).1,
       (extract_posts_from_elements rest seen_post_ids (some existing_ids)).2.1 + 1,
       (extract_posts_from_elements rest seen_post_ids (some existing_ids)).2.2) := by
  simp only [extract_posts_from_elements, hex]
  rw [if_neg (by simpa using hseen),
    if_pos (by simp only [existingHit, hne, Bool.not_false, Bool.true_and]; simpa using hmem)]

/-- Witness for C2 amended at a concrete element, seen-set and existing set. -/
theorem smart_mode_existing_hit_witness :
    extract_post_data (elemPost (str "p1")) clk0 =
      some ((extract_post_data (elemPost (str "p1")) clk0).getD (mkPost [] [])) ∧
    ([] : List Str).contains
      ((extract_post_data (elemPost (str "p1")) clk0).getD (mkPost [] [])).post_id = false ∧
    ([str "p1"] : List Str).isEmpty = false ∧
    ([str "p1"] : List Str).contains
      ((extract_post_data (elemPost (str "p1")) clk0).getD (mkPost [] [])).post_id = true ∧
    extract_posts_from_elements [(elemPost (str "p1"), clk0)] [] (some [str "p1"]) =
      ((extract_posts_from_elements [] [] (some [str "p1"])).1,
       (extract_posts_from_elements [] [] (some [str "p1"])).2.1 + 1,
       (extract_posts_from_elements [] [] (some [str "p1"])).2.2) :=
  ⟨by decide, by decide, by decide, by decide,
   smart_mode_existing_hit (elemPost (str "p1")) clk0 [] [] [str "p1"]
     ((extract_post_data (elemPost (str "p1")) clk0).getD (mkPost [] []))
     (by decide) (by decide) (by decide) (by decide)⟩

/-- Counterexample for C3: with selectors `[selA, selB]` and a requested
attribute, the first selector matches a descendant whose trimmed inner text
is the non-empty "hello world" (and whose attribute is absent); the claim
says the resolver stops at that first matching selector and returns its
non-empty value, but the code moves on and returns "v" from the second
selector. -/
theorem find_element_by_selectors_cex :
    (eC3.queryOne (str "selA")).isSome = true ∧
    (eC3.queryOne (str "selA")).map (fun f => trimStr f.innerText) =
      some (str "hello world") ∧
    (eC3.queryOne (str "selA")).bind (fun f => f.attrs (str "x")) = none ∧
    find_element_by_selectors eC3 [str "selA", str "selB"] (some (str "x")) = str "v" ∧
    str "v" ≠ str "hello world" :=
  ⟨by decide, by decide, by decide, by decide, by decide⟩

/-- Unfolding `List.find?` through `getD` at a cons cell. -/
theorem find_getD_cons (p : Str → Bool) (v : Str) (l : List Str) :
    ((v :: l).find? p).getD [] = if p v then v else (l.find? p).getD [] := by
  by_cases h : p v <;> simp [List.find?_cons, h]

/-- C3 amended: the resolver computes for each selector in order a candidate
value — the named attribute value when an attribute is requested (never
falling back to inner text), otherwise the trimmed inner text — and returns
the first non-empty candidate, skipping selectors that match nothing or whose
candidate is empty; it returns the empty string when no selector yields a
non-empty candidate. -/
theorem find_element_by_selectors_first_nonempty (element : PostElement)
    (selectors : List Str) (attrName : Option Str) :
    find_element_by_selectors element selectors attrName =
      ((selectors.map (selectorValue element attrName)).find?
        (fun v => !v.isEmpty)).getD [] := by
  induction selectors with
  | nil => rfl
  | cons s rest ih =>
    rw [List.map_cons, find_getD_cons]
    cases hq : element.queryOne s with
    | none =>
      have hval : selectorValue element attrName s = [] := by
        simp [selectorValue, hq]
      simp only [find_element_by_selectors, hq, hval]
      simpa using ih
    | some found =>
      cases attrName with
      | some attr =>
        cases ha : found.attrs attr with
        | none =>
          have hval : selectorValue element (some attr) s = [] := by
            simp [selectorValue, hq, ha]
          simp only [find_element_by_selectors, hq, ha, hval]
          simpa using ih
        | some result =>
          have hval : selectorValue element (some attr) s = result := by
            simp [selectorValue, hq, ha]
          simp only [find_element_by_selectors, hq, ha, hval]
          by_cases hr : result.isEmpty
          · simp [hr, ih]
          · simp [hr]
      | none =>
        have hval : selectorValue element none s = trimStr found.innerText := by
          simp [selectorValue, hq]
        simp only [find_element_by_selectors, hq, hval]
        by_cases hr : (trimStr found.innerText).isEmpty
        · simp [hr, ih]
        · simp [hr]

/-- When every content selector yields no qualifying text, the cascade
collects nothing. -/
theorem contentScan_all_empty (element : PostElement) :
    ∀ sels : List Str, (∀ s ∈ sels, qualifyingTexts (element.queryAll s) = []) →
      contentScan element sels = [] := by
  intro sels h
  induction sels with
  | nil => rfl
  | cons s rest ih =>
    have hs : qualifyingTexts (element.queryAll s) = [] := h s (List.mem_cons_self s rest)
    simp only [contentScan, hs, List.isEmpty_nil, if_true]
    exact ih (fun x hx => h x (List.mem_cons_of_mem s hx))

/-- The cascade returns the qualifying texts of the first selector that has
any, ignoring everything after it. -/
theorem contentScan_first (element : PostElement) :
    ∀ (pre : List Str) (s : Str) (post : List Str),
      (∀ x ∈ pre, qualifyingTexts (element.queryAll x) = []) →
      qualifyingTexts (element.queryAll s) ≠ [] →
      contentScan element (pre ++ s :: post) = qualifyingTexts (element.queryAll s) := by
  intro pre
  induction pre with
  | nil =>
    intro s post _ hne
    simp only [List.nil_append, contentScan]
    rw [if_neg (by simpa using hne)]
  | cons x xs ih =>
    intro s post hpre hne
    have hx : qualifyingTexts (element.queryAll x) = [] := hpre x (List.mem_cons_self x xs)
    simp only [List.cons_append, contentScan, hx, List.isEmpty_nil, if_true]
    exact ih s post (fun y hy => hpre y (List.mem_cons_of_mem x hy)) hne

/-- The fold behind `pickLongest` returns the accumulator or a list element,
and its result is at least as long as the accumulator and every element. -/
theorem pickLongest_foldl (l : List Str) : ∀ a : Str,
    (l.foldl (fun acc x => if acc.length < x.length then x else acc) a = a ∨
      l.foldl (fun acc x => if acc.length < x.length then x else acc) a ∈ l) ∧
    a.length ≤ (l.foldl (fun acc x => if acc.length < x.length then x else acc) a).length ∧
    ∀ t ∈ l, t.length ≤
      (l.foldl (fun acc x => if acc.length < x.length then x else acc) a).length := by
  induction l with
  | nil => intro a; refine ⟨Or.inl rfl, le_refl _, by simp⟩
  | cons x xs ih =>
    intro a
    simp only [List.foldl_cons]
    by_cases hx : a.length < x.length
    · rw [if_pos hx]
      obtain ⟨h1, h2, h3⟩ := ih x
      refine ⟨?_, le_trans (le_of_lt hx) h2, ?_⟩
      · rcases h1 with h1 | h1
        · exact Or.inr (by rw [h1]; exact List.mem_cons_self x xs)
        · exact Or.inr (List.mem_cons_of_mem x h1)
      · intro t ht
        rcases List.mem_cons.mp ht with h | h
        · subst h; exact h2
        · exact h3 t h
    · rw [if_neg hx]
      obtain ⟨h1, h2, h3⟩ := ih a
      refine ⟨?_, h2, ?_⟩
      · rcases h1 with h1 | h1
        · exact Or.inl h1
        · exact Or.inr (List.mem_cons_of_mem x h1)
      · intro t ht
        rcases List.mem_cons.mp ht with h | h
        · subst h; omega
        · exact h3 t h

/-- On a non-empty list, `pickLongest` is a member of maximal length. -/
theorem pickLongest_spec (l : List Str) (hne : l ≠ []) :
    pickLongest l ∈ l ∧ ∀ t ∈ l, t.length ≤ (pickLongest l).length := by
  cases l with
  | nil => exact absurd rfl hne
  | cons t ts =>
    have hp : pickLongest (t :: ts) =
        ts.foldl (fun acc x => if acc.length < x.length then x else acc) t := rfl
    obtain ⟨h1, h2, h3⟩ := pickLongest_foldl ts t
    rw [hp]
    refine ⟨?_, ?_⟩
    · rcases h1 with h1 | h1
      · rw [h1]; exact List.mem_cons_self t ts
      · exact List.mem_cons_of_mem t h1
    · intro u hu
      rcases List.mem_cons.mp hu with h | h
      · subst h; exact h2
      · exact h3 u h

/-- C9: content extraction is total and never fails: when no content selector
yields a qualifying text the content is the empty string; otherwise the
content is the longest qualifying text of the FIRST selector that yields any
(later selectors are not consulted), and the Post built by
`extract_post_data` carries exactly this content. -/
theorem extract_post_content_total_longest (element : PostElement) :
    ((∀ s ∈ SELECTORS_content, qualifyingTexts (element.queryAll s) = []) →
      extract_post_content element = []) ∧
    (∀ (pre : List Str) (s : Str) (post : List Str),
      SELECTORS_content = pre ++ s :: post →
      (∀ x ∈ pre, qualifyingTexts (element.queryAll x) = []) →
      qualifyingTexts (element.queryAll s) ≠ [] →
      extract_post_content element = pickLongest (qualifyingTexts (element.queryAll s)) ∧
      pickLongest (qualifyingTexts (element.queryAll s)) ∈
        qualifyingTexts (element.queryAll s) ∧
      ∀ t ∈ qualifyingTexts (element.queryAll s),
        t.length ≤ (pickLongest (qualifyingTexts (element.queryAll s))).length) ∧
    (∀ (clock : Clock) (p : Post), extract_post_data element clock = some p →
      p.content = extract_post_content element) := by
  refine ⟨?_, ?_, ?_⟩
  · intro h
    unfold extract_post_content
    rw [contentScan_all_empty element SELECTORS_content h]
    rfl
  · intro pre s post heq hpre hne
    have hscan : contentScan element SELECTORS_content =
        qualifyingTexts (element.queryAll s) := by
      rw [heq]
      exact contentScan_first element pre s post hpre hne
    refine ⟨by unfold extract_post_content; rw [hscan], ?_, ?_⟩
    · exact (pickLongest_spec _ hne).1
    · exact (pickLongest_spec _ hne).2
  · intro clock p hp
    unfold extract_post_data at hp
    cases hu : extract_post_url_and_id element clock.ts with
    | none => rw [hu] at hp; exact absurd hp (by simp)
    | some pr =>
      obtain ⟨u, i⟩ := pr
      rw [hu] at hp
      have hrec := Option.some.inj hp
      rw [← hrec]

/-- Witness for C9: on `eC9` the first content selector yields nothing, the
second yields qualifying texts, and the extracted content is the longest of
them. -/
theorem extract_post_content_witness :
    qualifyingTexts (eC9.queryAll (str "span[dir=\"auto\"]")) = [] ∧
    qualifyingTexts (eC9.queryAll (str "[data-testid=\"post-text\"]")) ≠ [] ∧
    extract_post_content eC9 =
      pickLongest (qualifyingTexts (eC9.queryAll (str "[data-testid=\"post-text\"]"))) :=
  ⟨by decide, by decide,
   ((extract_post_content_total_longest eC9).2.1
     [str "span[dir=\"auto\"]"] (str "[data-testid=\"post-text\"]")
     [str "[data-testid=\"text-post-content\"]", str "div[dir=\"auto\"]", str "div > span"]
     (by decide) (by decide) (by decide)).1⟩

/-- The synthetic time-derived id is never the empty string. -/
theorem synthetic_id_ne_nil (now_ts : Str) : str "unknown_" ++ now_ts ≠ [] := by
  intro h
  have := congrArg List.length h
  simp [str] at this

/-- C10: `extract_post_url_and_id`, whenever it returns at all, returns a
non-empty id (falling back to a synthetic time-derived one); hence every Post
built by `extract_post_data` passes the keep-validation
"non-empty content, media, or id", and `extract_posts_from_elements` appends
every successfully extracted, unseen, non-existing-hit record — validation
never discards a record. -/
theorem extracted_id_nonempty_validation :
    (∀ (element : PostElement) (now_ts url id : Str),
      extract_post_url_and_id element now_ts = some (url, id) → id ≠ []) ∧
    (∀ (element : PostElement) (clock : Clock) (p : Post),
      extract_post_data element clock = some p →
      (!p.content.isEmpty || !p.media.isEmpty || !p.post_id.isEmpty) = true) ∧
    (∀ (element : PostElement) (clock : Clock) (rest : List (PostElement × Clock))
        (seen_post_ids : List Str) (existing_post_ids : Option (List Str)) (p : Post),
      extract_post_data element clock = some p →
      seen_post_ids.contains p.post_id = false →
      existingHit existing_post_ids p.post_id = false →
      extract_posts_from_elements ((element, clock) :: rest) seen_post_ids existing_post_ids =
        (p :: (extract_posts_from_elements rest
            (p.post_id :: seen_post_ids) existing_post_ids).1,
         (extract_posts_from_elements rest
            (p.post_id :: seen_post_ids) existing_post_ids).2.1,
         (extract_posts_from_elements rest
            (p.post_id :: seen_post_ids) existing_post_ids).2.2)) := by
  have hite : ∀ pid now_ts : Str,
      (if !pid.isEmpty then pid else str "unknown_" ++ now_ts) ≠ [] := by
    intro pid now_ts
    by_cases he : pid.isEmpty
    · rw [if_neg (by simp [he])]
      exact synthetic_id_ne_nil now_ts
    · rw [if_pos (by simp [he])]
      simpa using he
  have hid : ∀ (element : PostElement) (now_ts url id : Str),
      extract_post_url_and_id element now_ts = some (url, id) → id ≠ [] := by
    intro element now_ts url id h
    cases h1 : element.queryOne (str "a[href*=\"/post/\"]") with
    | some l =>
      cases h2 : l.attrs (str "href") with
      | none =>
        simp only [extract_post_url_and_id, h1, h2] at h
        exact absurd h (by simp)
      | some href =>
        simp only [extract_post_url_and_id, h1, h2, Option.some.injEq, Prod.mk.injEq] at h
        rw [← h.2]
        exact hite _ now_ts
    | none =>
      cases h1b : element.queryOne (str "a[href*=\"threads.com\"]") with
      | some l =>
        cases h2 : l.attrs (str "href") with
        | none =>
          simp only [extract_post_url_and_id, h1, h1b, h2] at h
          exact absurd h (by simp)
        | some href =>
          simp only [extract_post_url_and_id, h1, h1b, h2,
            Option.some.injEq, Prod.mk.injEq] at h
          rw [← h.2]
          exact hite _ now_ts
      | none =>
        simp only [extract_post_url_and_id, h1, h1b,
          Option.some.injEq, Prod.mk.injEq] at h
        rw [← h.2]
        exact synthetic_id_ne_nil now_ts
  have hval : ∀ (element : PostElement) (clock : Clock) (p : Post),
      extract_post_data element clock = some p →
      (!p.content.isEmpty || !p.media.isEmpty || !p.post_id.isEmpty) = true := by
    intro element clock p hp
    unfold extract_post_data at hp
    cases hu : extract_post_url_and_id element clock.ts with
    | none => rw [hu] at hp; exact absurd hp (by simp)
    | some pr =>
      obtain ⟨u, i⟩ := pr
      rw [hu] at hp
      have hpid : p.post_id = i := by rw [← Option.some.inj hp]
      have hine : i ≠ [] := hid element clock.ts u i hu
      have : p.post_id.isEmpty = false := by
        rw [hpid]
        cases i with
        | nil => exact absurd rfl hine
        | cons c cs => rfl
      simp [this]
  refine ⟨hid, hval, ?_⟩
  intro element clock rest seen_post_ids existing_post_ids p hex hseen hhit
  simp only [extract_posts_from_elements, hex]
  rw [if_neg (by simpa using hseen), if_neg (by simp [hhit]),
    if_pos (hval element clock p hex)]

/-- Witness for C10 at a concrete element carrying the permalink
`/@u/post/p1`. -/
theorem extracted_id_nonempty_validation_witness :
    extract_post_url_and_id (elemPost (str "p1")) clk0.ts =
      some (str "https://www.threads.com/@u/post/p1", str "p1") ∧
    str "p1" ≠ [] ∧
    extract_post_data (elemPost (str "p1")) clk0 =
      some ((extract_post_data (elemPost (str "p1")) clk0).getD (mkPost [] [])) ∧
    (!((extract_post_data (elemPost (str "p1")) clk0).getD (mkPost [] [])).content.isEmpty ||
     !((extract_post_data (elemPost (str "p1")) clk0).getD (mkPost [] [])).media.isEmpty ||
     !((extract_post_data (elemPost (str "p1")) clk0).getD
        (mkPost [] [])).post_id.isEmpty) = true :=
  ⟨by decide,
   extracted_id_nonempty_validation.1 (elemPost (str "p1")) clk0.ts
     (str "https://www.threads.com/@u/post/p1") (str "p1") (by decide),
   by decide,
   extracted_id_nonempty_validation.2.1 (elemPost (str "p1")) clk0
     ((extract_post_data (elemPost (str "p1")) clk0).getD (mkPost [] [])) (by decide)⟩
